import Mathlib

/-!
Shallow embedding of the `resctl-bench` core from the `resctl-demo`
repository, covering:

* `Args::parse_job_spec` (src/resctl-bench-intf/src/args.rs): the job-spec
  grammar `kind(':' token)*` with property groups;
* `Program::prep_base_bench` (src/resctl-bench/src/main.rs): calibration
  (bench-file) preparation and device-identity validation;
* `Program::clean_up_report_files` (src/resctl-bench/src/main.rs): the
  report-retention computation;
* the format-time property checks of `Program::do_format`
  (src/resctl-bench/src/main.rs).

Rust strings are Lean `String`s; `str::split(c)` is `List.splitOn c` on the
character list (both yield one empty piece for the empty input and keep
empty pieces between adjacent separators).  `BTreeMap<String,String>` is a
key-sorted association list with unique keys.  Fallible code returns
`Except`.
-/

namespace ResctlBench

instance {ε α : Type} [DecidableEq ε] [DecidableEq α] : DecidableEq (Except ε α) := fun x y =>
  match x, y with
  | .ok a, .ok b =>
    if h : a = b then isTrue (h ▸ rfl) else isFalse (fun hh => h (Except.ok.inj hh))
  | .error a, .error b =>
    if h : a = b then isTrue (h ▸ rfl) else isFalse (fun hh => h (Except.error.inj hh))
  | .ok _, .error _ => isFalse nofun
  | .error _, .ok _ => isFalse nofun

/-- A property group: `BTreeMap<String, String>` modelled as an association
list kept sorted by key with unique keys. -/
abbrev PropGroup := List (String × String)

/-- Lexicographic strict order on character lists, mirroring `BTreeMap`'s
byte order on UTF-8 strings (UTF-8 byte order agrees with codepoint
order). -/
def strLtb (a b : List Char) : Bool :=
  match a, b with
  | [], [] => false
  | [], _ :: _ => true
  | _ :: _, [] => false
  | c :: as, d :: bs =>
    if c.toNat < d.toNat then true
    else if d.toNat < c.toNat then false
    else strLtb as bs

/-- Model of `BTreeMap::insert`: replace the value if the key is present,
otherwise insert at the key-ordered position. -/
def insertProp (m : PropGroup) (k v : String) : PropGroup :=
  match m with
  | [] => [(k, v)]
  | (k', v') :: rest =>
    if k = k' then (k, v) :: rest
    else if strLtb k.data k'.data then (k, v) :: (k', v') :: rest
    else (k', v') :: insertProp rest k v

/-- Apply `f` to the last element of a list (`Vec::last_mut`). -/
def updateLast (f : PropGroup → PropGroup) : List PropGroup → List PropGroup
  | [] => []
  | [g] => [f g]
  | g :: rest => g :: updateLast f rest

/-- The `JobSpec` of resctl-bench-intf: benchmark kind, optional id, and
the ordered sequence of property groups. -/
structure JobSpec where
  kind : String
  id : Option String
  props : List PropGroup
  deriving DecidableEq, Repr

/-- Rust `spec.split(':')`: split at every `':'`, keeping empty pieces. -/
def splitTokens (s : String) : List String :=
  (s.data.splitOn ':').map (fun cs => ⟨cs⟩)

/-- Rust `tok.splitn(2, '=')` followed by padding with `""`: the key is
everything before the first `'='`, the value the rest (empty when there is
no `'='`). -/
def splitKV (tok : String) : String × String :=
  match tok.data.splitOn '=' with
  | [] => ("", "")
  | k :: rest => (⟨k⟩, ⟨List.intercalate ['='] rest⟩)

/-- One iteration of the token loop of `Args::parse_job_spec`
(src/resctl-bench-intf/src/args.rs lines 78–104).  State: the `id` found so
far and the property groups.  An empty token pushes a new group when there
is a single group or the last group is non-empty; `id=` sets the id; any
other token is inserted into the last group. -/
def specStep (st : Option String × List PropGroup) (tok : String) :
    Option String × List PropGroup :=
  if tok.data = [] then
    if st.2.length = 1 ∨ 0 < (st.2.getLast?.getD []).length then
      (st.1, st.2 ++ [[]])
    else
      st
  else
    let kv := splitKV tok
    if kv.1 = "id" then
      (some kv.2, st.2)
    else
      (st.1, updateLast (fun g => insertProp g kv.1 kv.2) st.2)

/-- The trailing-group cleanup of `Args::parse_job_spec` (lines 106–108):
with more than one group and an empty last group, drop the last group. -/
def finalizeProps (ps : List PropGroup) : List PropGroup :=
  if 1 < ps.length ∧ (ps.getLast?.getD []).length = 0 then ps.dropLast else ps

/-- Translation of `Args::parse_job_spec` (src/resctl-bench-intf/src/args.rs
lines 67–115). -/
def parse_job_spec (spec : String) : Except String JobSpec :=
  match splitTokens spec with
  | [] => .error "invalid job type"
  | kind :: toks =>
    let st := toks.foldl specStep (none, [[]])
    .ok { kind := kind, id := st.1, props := finalizeProps st.2 }

/-- The iocost model/QoS knob pair held in `BenchKnobs.iocost`.  The
parameter structures live in `rd-agent-intf` (outside the embedded
sources), so their payload types are abstract parameters `M` and `Q`. -/
structure IoCostKnobs (M Q : Type) where
  model : M
  qos : Q
  deriving DecidableEq, Repr

/-- Modelled from the spec: the struct `rd_agent_intf::BenchKnobs` lives in
`rd-agent-intf`, outside the embedded sources, so its shape follows the
spec's CalibrationData — device identity (model, firmware revision, size —
empty/zero by default) plus iocost parameters and a sequence number —
restricted to the fields `Program::prep_base_bench` reads and writes. -/
structure BenchKnobs (M Q : Type) where
  iocost_dev_model : String
  iocost_dev_fwrev : String
  iocost_dev_size : Nat
  iocost_seq : Nat
  iocost : IoCostKnobs M Q
  deriving DecidableEq, Repr

/-- The live iocost snapshot (`IoCostSysSave`), restricted to the fields
`prep_base_bench` reads: whether the kernel has iocost enabled for the
device, and the live model/QoS parameters. -/
structure IoCostSysSave (M Q : Type) where
  enable : Bool
  model : M
  qos : Q
  deriving DecidableEq, Repr

/-- The distinct `bail!` sites of `prep_base_bench`, plus the live-iocost
failure. -/
inductive PrepError where
  | devModelMismatch (loaded detected : String)
  | devFwrevMismatch (loaded detected : String)
  | devSizeMismatch (loaded detected : Nat)
  | liveIoCostUnavailable
  deriving DecidableEq, Repr

/-- Whether a `PrepError` is one of the three device-identity mismatch
errors. -/
def PrepError.isDevMismatch : PrepError → Bool
  | .devModelMismatch _ _ => true
  | .devFwrevMismatch _ _ => true
  | .devSizeMismatch _ _ => true
  | .liveIoCostUnavailable => false

/-- Translation of `Program::prep_base_bench` (src/resctl-bench/src/main.rs
lines 107–181), from the point where the bench file has been loaded (or
defaulted) and the device identity freshly detected: validate each stored
identity field against the detected one (non-empty/non-zero stored values
must match, checked model, then firmware revision, then size, before any
field is overwritten), then record the detected identity, and finally, when
`iocost_from_sys` is set, require live iocost to be enabled and copy the
live model/QoS with the sequence number set to 1. -/
def prep_base_bench {M Q : Type} (bench : BenchKnobs M Q)
    (dev_model dev_fwrev : String) (dev_size : Nat)
    (iocost_from_sys : Bool) (save : IoCostSysSave M Q) :
    Except PrepError (BenchKnobs M Q) :=
  if 0 < bench.iocost_dev_model.length ∧ bench.iocost_dev_model ≠ dev_model then
    .error (.devModelMismatch bench.iocost_dev_model dev_model)
  else if 0 < bench.iocost_dev_fwrev.length ∧ bench.iocost_dev_fwrev ≠ dev_fwrev then
    .error (.devFwrevMismatch bench.iocost_dev_fwrev dev_fwrev)
  else if 0 < bench.iocost_dev_size ∧ bench.iocost_dev_size ≠ dev_size then
    .error (.devSizeMismatch bench.iocost_dev_size dev_size)
  else
    let bench := { bench with
      iocost_dev_model := dev_model
      iocost_dev_fwrev := dev_fwrev
      iocost_dev_size := dev_size }
    if iocost_from_sys then
      if !save.enable then
        .error .liveIoCostUnavailable
      else
        .ok { bench with
          iocost_seq := 1
          iocost := { model := save.model, qos := save.qos } }
    else
      .ok bench

/-- The report-retention pair handed to the agent by
`Program::clean_up_report_files` (src/resctl-bench/src/main.rs lines
79–94): the fine (1s) retention is the configured value, the coarse
(1-minute) retention is the configured value capped from below by the
compiled-in default (`rd_agent_intf::Args::default().rep_1min_retention`,
passed in as `dfl_rep_1min_retention` since `rd-agent-intf` is outside the
embedded sources). -/
def clean_up_retentions (rep_retention dfl_rep_1min_retention : Nat) : Nat × Nat :=
  (rep_retention, rep_retention.max dfl_rep_1min_retention)

/-- The format-properties rejection check of `Program::do_format`
(src/resctl-bench/src/main.rs line 292): with `takes_format_props` unset,
reject exactly when the first property group (`spec.props[0]`) is
non-empty. -/
def format_props_reject (takes_format_props : Bool) (props : List PropGroup) : Bool :=
  !takes_format_props && decide (0 < (props.headD []).length)

/-- The multiple-property-set rejection check of `Program::do_format`
(src/resctl-bench/src/main.rs line 299): with `takes_format_propsets`
unset, reject exactly when there is more than one property group. -/
def format_propsets_reject (takes_format_propsets : Bool) (props : List PropGroup) : Bool :=
  !takes_format_propsets && decide (1 < props.length)

/-! ## Helper lemmas -/

theorem updateLast_length (f : PropGroup → PropGroup) :
    ∀ l : List PropGroup, (updateLast f l).length = l.length
  | [] => rfl
  | [_] => rfl
  | _ :: g :: rest => by
    simp only [updateLast, List.length_cons]
    exact congrArg (· + 1) (updateLast_length f (g :: rest))

theorem specStep_length_le (st : Option String × List PropGroup) (tok : String) :
    st.2.length ≤ (specStep st tok).2.length := by
  unfold specStep
  split
  · split
    · simp
    · exact le_refl _
  · dsimp only
    split
    · exact le_refl _
    · simp [updateLast_length]

theorem foldl_specStep_length (toks : List String) :
    ∀ st : Option String × List PropGroup,
      st.2.length ≤ (toks.foldl specStep st).2.length := by
  induction toks with
  | nil => intro st; exact le_refl _
  | cons t ts ih =>
    intro st
    exact le_trans (specStep_length_le st t) (ih (specStep st t))

theorem finalizeProps_length_pos (ps : List PropGroup) (h : 1 ≤ ps.length) :
    1 ≤ (finalizeProps ps).length := by
  unfold finalizeProps
  split
  · next hc =>
    have := hc.1
    simp only [List.length_dropLast]
    omega
  · exact h

/-! ## Claim theorems -/

/-- C1: whenever the loaded bench file carries a non-empty/non-zero device
model, firmware revision or size that differs from the freshly detected
one, `prep_base_bench` fails with a device-mismatch error (and hence
produces no updated calibration data: all identity checks run before any
field is overwritten). -/
theorem prep_base_bench_device_mismatch {M Q : Type} (bench : BenchKnobs M Q)
    (dev_model dev_fwrev : String) (dev_size : Nat)
    (iocost_from_sys : Bool) (save : IoCostSysSave M Q)
    (h : (bench.iocost_dev_model ≠ "" ∧ bench.iocost_dev_model ≠ dev_model) ∨
      (bench.iocost_dev_fwrev ≠ "" ∧ bench.iocost_dev_fwrev ≠ dev_fwrev) ∨
      (0 < bench.iocost_dev_size ∧ bench.iocost_dev_size ≠ dev_size)) :
    ∃ e, prep_base_bench bench dev_model dev_fwrev dev_size iocost_from_sys save =
      .error e ∧ e.isDevMismatch = true := by
  have hlen : ∀ s : String, s ≠ "" → 0 < s.length := by
    intro s hs
    cases s with
    | mk data =>
      cases data with
      | nil => exact absurd rfl hs
      | cons c cs => simp [String.length]
  unfold prep_base_bench
  by_cases h1 : 0 < bench.iocost_dev_model.length ∧ bench.iocost_dev_model ≠ dev_model
  · exact ⟨.devModelMismatch bench.iocost_dev_model dev_model, by simp [h1], rfl⟩
  · by_cases h2 : 0 < bench.iocost_dev_fwrev.length ∧ bench.iocost_dev_fwrev ≠ dev_fwrev
    · exact ⟨.devFwrevMismatch bench.iocost_dev_fwrev dev_fwrev, by simp [h1, h2], rfl⟩
    · by_cases h3 : 0 < bench.iocost_dev_size ∧ bench.iocost_dev_size ≠ dev_size
      · exact ⟨.devSizeMismatch bench.iocost_dev_size dev_size, by simp [h1, h2, h3], rfl⟩
      · exfalso
        rcases h with ⟨ha, hb⟩ | ⟨ha, hb⟩ | hk
        · exact h1 ⟨hlen _ ha, hb⟩
        · exact h2 ⟨hlen _ ha, hb⟩
        · exact h3 hk

/-- Witness for C1: a bench file storing model `"modelA"` mismatches
detected model `"modelB"`. -/
theorem prep_base_bench_device_mismatch_witness :
    ∃ e, prep_base_bench (⟨"modelA", "", 0, 0, ⟨0, 0⟩⟩ : BenchKnobs Nat Nat)
      "modelB" "fw" 1 false ⟨false, 0, 0⟩ = .error e ∧ e.isDevMismatch = true :=
  prep_base_bench_device_mismatch _ _ _ _ _ _ (Or.inl ⟨by decide, by decide⟩)

/-- C2 counterexample: in the parser state holding a single *empty*
property group (the state after reading the kind), an empty token does
start a new property group even though the last group contains no
property; observably, `"fio::a=1"` parses to two groups `[{}, {a:1}]`
instead of the single group the claimed rule would produce. -/
theorem specStep_empty_token_counterexample :
    (specStep (none, [[]]) "").2 = [[], []] ∧
      (([[]] : List PropGroup).getLast?.getD []).length = 0 ∧
      parse_job_spec "fio::a=1" = .ok ⟨"fio", none, [[], [("a", "1")]]⟩ := by
  decide

/-- C2 as amended: an empty token starts a new property group exactly when
the parser holds a single group so far (even an empty one) or the last
group contains at least one property; otherwise the separator is
absorbed. -/
theorem specStep_empty_token_rule (st : Option String × List PropGroup)
    (tok : String) (h : tok.data = []) :
    ((specStep st tok).2 = st.2 ++ [[]] ↔
      (st.2.length = 1 ∨ 0 < (st.2.getLast?.getD []).length)) ∧
    ((specStep st tok).2 = st.2 ↔
      ¬(st.2.length = 1 ∨ 0 < (st.2.getLast?.getD []).length)) := by
  by_cases hc : st.2.length = 1 ∨ 0 < (st.2.getLast?.getD []).length
  · constructor
    · simp [specStep, h, hc]
    · simp only [specStep, h, if_pos rfl, if_pos hc]
      constructor
      · intro heq
        have := congrArg List.length heq
        simp at this
      · intro hn; exact absurd hc hn
  · constructor
    · simp only [specStep, h, if_pos rfl, if_neg hc]
      constructor
      · intro heq
        have := congrArg List.length heq
        simp at this
      · intro hk; exact absurd hk hc
    · simp [specStep, h, hc]

/-- Witness for C2's amended rule at a concrete state: with one non-empty
group, an empty token starts a new group. -/
theorem specStep_empty_token_rule_witness :
    ((specStep (none, [[("a", "1")]]) "").2 = [[("a", "1")]] ++ [[]] ↔
      (([[("a", "1")]] : List PropGroup).length = 1 ∨
        0 < (([[("a", "1")]] : List PropGroup).getLast?.getD []).length)) ∧
    ((specStep (none, [[("a", "1")]]) "").2 = [[("a", "1")]] ↔
      ¬(([[("a", "1")]] : List PropGroup).length = 1 ∨
        0 < (([[("a", "1")]] : List PropGroup).getLast?.getD []).length)) :=
  specStep_empty_token_rule (none, [[("a", "1")]]) "" (by decide)

/-- C3: `"fio:id=foo::a=1::b=2"` parses to kind `fio`, id `foo`, and
property groups `[{}, {a:1}, {b:2}]` — the id-only leading group stays an
empty first group. -/
theorem parse_job_spec_id_leading_group :
    parse_job_spec "fio:id=foo::a=1::b=2" =
      .ok ⟨"fio", some "foo", [[], [("a", "1")], [("b", "2")]]⟩ := by
  decide

/-- C4 counterexample: an input whose first token is empty parses
successfully (with empty kind) instead of returning a parse error; both
`":a=1"` and the empty string are accepted. -/
theorem parse_job_spec_empty_kind_counterexample :
    parse_job_spec ":a=1" = .ok ⟨"", none, [[("a", "1")]]⟩ ∧
      parse_job_spec "" = .ok ⟨"", none, [[]]⟩ := by
  decide

/-- C4 as amended: `parse_job_spec` never returns an error — splitting
always yields at least a first token, so the missing-kind error branch is
unreachable and an empty first token is accepted as an empty kind. -/
theorem parse_job_spec_never_errors (s : String) :
    ∃ j, parse_job_spec s = .ok j := by
  have hne : splitTokens s ≠ [] := by
    unfold splitTokens List.splitOn
    simp only [ne_eq, List.map_eq_nil_iff]
    exact List.splitOnP_ne_nil _ _
  obtain ⟨kind, toks, hsplit⟩ := List.exists_cons_of_ne_nil hne
  refine ⟨⟨kind, (toks.foldl specStep (none, [[]])).1,
    finalizeProps (toks.foldl specStep (none, [[]])).2⟩, ?_⟩
  simp [parse_job_spec, hsplit]

/-- C5: after processing all tokens, a trailing empty group is dropped
whenever there are at least two groups; in particular `"fio:a=1::"` parses
to the single property group `{a:1}`. -/
theorem finalizeProps_drops_trailing_empty :
    (∀ ps : List PropGroup, 1 < ps.length → (ps.getLast?.getD []).length = 0 →
      finalizeProps ps = ps.dropLast) ∧
    parse_job_spec "fio:a=1::" = .ok ⟨"fio", none, [[("a", "1")]]⟩ := by
  constructor
  · intro ps h1 h2
    simp [finalizeProps, h1, h2]
  · decide

/-- Witness for C5's general part at a concrete group list. -/
theorem finalizeProps_drops_trailing_empty_witness :
    finalizeProps [[("a", "1")], []] = ([[("a", "1")], []] : List PropGroup).dropLast :=
  finalizeProps_drops_trailing_empty.1 _ (by decide) (by decide)

/-- C6: every successfully parsed `JobSpec` has at least one property
group. -/
theorem parse_job_spec_props_nonempty (s : String) (j : JobSpec)
    (h : parse_job_spec s = .ok j) : 1 ≤ j.props.length := by
  cases hsplit : splitTokens s with
  | nil => simp [parse_job_spec, hsplit] at h
  | cons kind toks =>
    simp only [parse_job_spec, hsplit, Except.ok.injEq] at h
    subst h
    exact finalizeProps_length_pos _
      (le_trans (by simp) (foldl_specStep_length toks (none, [[]])))

/-- Witness for C6 at the concrete input `"fio"`. -/
theorem parse_job_spec_props_nonempty_witness :
    1 ≤ (JobSpec.mk "fio" none [[]]).props.length :=
  parse_job_spec_props_nonempty "fio" _ (by decide)

/-- C7: the coarse (1-minute) retention handed to the agent's cleanup
invocation is `max(configured retention, compiled default coarse
retention)`, hence at least each of the two. -/
theorem clean_up_retentions_coarse (rep_retention dfl : Nat) :
    (clean_up_retentions rep_retention dfl).2 = max rep_retention dfl ∧
      rep_retention ≤ (clean_up_retentions rep_retention dfl).2 ∧
      dfl ≤ (clean_up_retentions rep_retention dfl).2 :=
  ⟨rfl, Nat.le_max_left _ _, Nat.le_max_right _ _⟩

/-- C8 counterexample: with default (empty) calibration data but live
iocost sourcing requested while iocost is disabled, `prep_base_bench`
fails instead of succeeding. -/
theorem prep_base_bench_default_counterexample :
    prep_base_bench (⟨"", "", 0, 0, ⟨0, 0⟩⟩ : BenchKnobs Nat Nat)
      "modelX" "fw1" 42 true ⟨false, 5, 6⟩ = .error .liveIoCostUnavailable := by
  decide

/-- C8 as amended: for default (empty-identity) calibration data,
`prep_base_bench` succeeds for every detected device identity provided
live iocost sourcing is not requested or iocost is enabled, and it records
the detected model, firmware revision and size. -/
theorem prep_base_bench_default_succeeds {M Q : Type} (bench : BenchKnobs M Q)
    (dev_model dev_fwrev : String) (dev_size : Nat)
    (iocost_from_sys : Bool) (save : IoCostSysSave M Q)
    (h1 : bench.iocost_dev_model = "") (h2 : bench.iocost_dev_fwrev = "")
    (h3 : bench.iocost_dev_size = 0)
    (h4 : iocost_from_sys = false ∨ save.enable = true) :
    ∃ b, prep_base_bench bench dev_model dev_fwrev dev_size iocost_from_sys save =
      .ok b ∧ b.iocost_dev_model = dev_model ∧ b.iocost_dev_fwrev = dev_fwrev ∧
      b.iocost_dev_size = dev_size := by
  rcases h4 with h4 | h4
  · subst h4
    exact ⟨⟨dev_model, dev_fwrev, dev_size, bench.iocost_seq, bench.iocost⟩,
      by simp [prep_base_bench, h1, h2, h3], rfl, rfl, rfl⟩
  · rcases iocost_from_sys with _ | _
    · exact ⟨⟨dev_model, dev_fwrev, dev_size, bench.iocost_seq, bench.iocost⟩,
        by simp [prep_base_bench, h1, h2, h3], rfl, rfl, rfl⟩
    · exact ⟨⟨dev_model, dev_fwrev, dev_size, 1, ⟨save.model, save.qos⟩⟩,
        by simp [prep_base_bench, h1, h2, h3, h4], rfl, rfl, rfl⟩

/-- Witness for C8's amended statement at a concrete default bench. -/
theorem prep_base_bench_default_succeeds_witness :
    ∃ b, prep_base_bench (⟨"", "", 0, 0, ⟨0, 0⟩⟩ : BenchKnobs Nat Nat)
      "m" "f" 3 false ⟨false, 0, 0⟩ = .ok b ∧ b.iocost_dev_model = "m" ∧
      b.iocost_dev_fwrev = "f" ∧ b.iocost_dev_size = 3 :=
  prep_base_bench_default_succeeds _ _ _ _ _ _ rfl rfl rfl (Or.inl rfl)

/-- C9 counterexample: with a loaded sequence number of 5 and live iocost
sourcing enabled, `prep_base_bench` sets the sequence number to 1 — it is
not monotonically increased relative to its previously loaded value. -/
theorem prep_base_bench_seq_counterexample :
    prep_base_bench (⟨"", "", 0, 5, ⟨0, 0⟩⟩ : BenchKnobs Nat Nat)
      "m" "f" 1 true ⟨true, 7, 8⟩ = .ok ⟨"m", "f", 1, 1, ⟨7, 8⟩⟩ ∧
      ¬(5 < (1 : Nat)) := by
  decide

/-- C9 as amended: when live iocost sourcing is requested, `prep_base_bench`
fails fatally if iocost is not enabled for the device, and otherwise copies
model/QoS from the live snapshot and sets the sequence number to 1 (rather
than monotonically increasing its loaded value); without live sourcing, the
loaded model, QoS and sequence number are kept unchanged. -/
theorem prep_base_bench_live_iocost {M Q : Type} (bench : BenchKnobs M Q)
    (dev_model dev_fwrev : String) (dev_size : Nat) (save : IoCostSysSave M Q)
    (h1 : bench.iocost_dev_model = "" ∨ bench.iocost_dev_model = dev_model)
    (h2 : bench.iocost_dev_fwrev = "" ∨ bench.iocost_dev_fwrev = dev_fwrev)
    (h3 : bench.iocost_dev_size = 0 ∨ bench.iocost_dev_size = dev_size) :
    (save.enable = false →
      prep_base_bench bench dev_model dev_fwrev dev_size true save =
        .error .liveIoCostUnavailable) ∧
    (save.enable = true →
      prep_base_bench bench dev_model dev_fwrev dev_size true save =
        .ok ⟨dev_model, dev_fwrev, dev_size, 1, ⟨save.model, save.qos⟩⟩) ∧
    prep_base_bench bench dev_model dev_fwrev dev_size false save =
      .ok ⟨dev_model, dev_fwrev, dev_size, bench.iocost_seq, bench.iocost⟩ := by
  have g1 : ¬(0 < bench.iocost_dev_model.length ∧ bench.iocost_dev_model ≠ dev_model) := by
    rcases h1 with h | h <;> simp [h]
  have g2 : ¬(0 < bench.iocost_dev_fwrev.length ∧ bench.iocost_dev_fwrev ≠ dev_fwrev) := by
    rcases h2 with h | h <;> simp [h]
  have g3 : ¬(0 < bench.iocost_dev_size ∧ bench.iocost_dev_size ≠ dev_size) := by
    rcases h3 with h | h <;> simp [h]
  refine ⟨fun he => ?_, fun he => ?_, ?_⟩
  · simp [prep_base_bench, g1, g2, g3, he]
  · simp [prep_base_bench, g1, g2, g3, he]
  · simp [prep_base_bench, g1, g2, g3]

/-- Witness for C9's amended statement at concrete inputs. -/
theorem prep_base_bench_live_iocost_witness :
    ((⟨true, 7, 8⟩ : IoCostSysSave Nat Nat).enable = false →
      prep_base_bench (⟨"", "", 0, 5, ⟨0, 0⟩⟩ : BenchKnobs Nat Nat)
        "m" "f" 1 true ⟨true, 7, 8⟩ = .error .liveIoCostUnavailable) ∧
    ((⟨true, 7, 8⟩ : IoCostSysSave Nat Nat).enable = true →
      prep_base_bench (⟨"", "", 0, 5, ⟨0, 0⟩⟩ : BenchKnobs Nat Nat)
        "m" "f" 1 true ⟨true, 7, 8⟩ =
        .ok ⟨"m", "f", 1, 1, ⟨7, 8⟩⟩) ∧
    prep_base_bench (⟨"", "", 0, 5, ⟨0, 0⟩⟩ : BenchKnobs Nat Nat)
      "m" "f" 1 false ⟨true, 7, 8⟩ =
      .ok ⟨"m", "f", 1, 5, ⟨0, 0⟩⟩ :=
  prep_base_bench_live_iocost _ "m" "f" 1 ⟨true, 7, 8⟩
    (Or.inl rfl) (Or.inl rfl) (Or.inl rfl)

/-- C10: the format-properties rejection check of `do_format` looks only at
the first property group — replacing the later groups never changes its
outcome; with format properties disallowed it rejects exactly when the
first group is non-empty, and a spec with an empty first group and extra
non-empty groups is caught only by the separate multiple-group check. -/
theorem format_props_reject_first_group_only (g : PropGroup)
    (gs gs' : List PropGroup) (takes_format_props : Bool) :
    format_props_reject takes_format_props (g :: gs) =
      format_props_reject takes_format_props (g :: gs') ∧
    (format_props_reject false (g :: gs) = true ↔ g ≠ []) ∧
    (format_propsets_reject false ([] :: gs) = true ↔ gs ≠ []) := by
  refine ⟨rfl, ?_, ?_⟩
  · simp [format_props_reject, List.length_pos]
  · simp [format_propsets_reject, Nat.lt_iff_add_one_le]
    constructor
    · intro h
      cases gs with
      | nil => simp at h
      | cons a l => simp
    · intro h
      cases gs with
      | nil => exact absurd rfl h
      | cons a l => simp

end ResctlBench
